import Mathlib

/-!
Verification of the geospatial analysis engine of the 5g_planner repository
(`src/App.jsx`): HDOP estimation (`computeHdop` with its linear-algebra
helpers `mathTranspose`, `mathMultiply`), coverage-grid enumeration
(`generateGrid`), and tower clustering (`findTowerClusterCenter` with its
nested `haversine` helper).

Modelling choices (shallow embedding):
* JavaScript numbers are modelled as exact real numbers extended with the
  IEEE special values `NaN`, `+Infinity`, `-Infinity` (type `JSNum`).
  Arithmetic on ordinary values is exact real arithmetic (rounding is not
  modelled); the special values propagate as in IEEE-754/JavaScript.  The
  only operation of the engine that can produce a special value from
  ordinary inputs is division (`0/0 = NaN`, `x/0 = ±Infinity`), and
  `Math.sqrt` of a negative number is `NaN`.
* Where a subcomputation provably stays within ordinary finite values
  (differences, products, sums, `Math.sqrt` of a non-negative number) it is
  written directly over `ℝ` and lifted into `JSNum` at the first operation
  that could produce a special value.  This matches the JavaScript source
  line for line.
* The grid loops `for (let lat = latMin; lat <= latMax; lat += res)` are
  embedded in exact real arithmetic: the running value after `k` steps is
  `latMin + k * res`, so the loop emits exactly the values
  `latMin + k * res` for `0 ≤ k ≤ ⌊(latMax - latMin) / res⌋`.  For
  `res ≤ 0` (with a non-trivial range) the source loop does not terminate;
  that case is outside every claim and the embedding returns `[]` there.
-/

open scoped Classical

noncomputable section

/-- A JavaScript number: an exact real, or one of the IEEE special values. -/
inductive JSNum where
  | num : ℝ → JSNum
  | posInf : JSNum
  | negInf : JSNum
  | nan : JSNum

namespace JSNum

/-- JavaScript `+` on numbers (IEEE addition, exact on ordinary values). -/
def add : JSNum → JSNum → JSNum
  | num x, num y => num (x + y)
  | num _, posInf => posInf
  | num _, negInf => negInf
  | posInf, num _ => posInf
  | negInf, num _ => negInf
  | posInf, posInf => posInf
  | negInf, negInf => negInf
  | posInf, negInf => nan
  | negInf, posInf => nan
  | _, _ => nan

/-- JavaScript unary `-` on numbers. -/
def neg : JSNum → JSNum
  | num x => num (-x)
  | posInf => negInf
  | negInf => posInf
  | nan => nan

/-- JavaScript binary `-` on numbers. -/
def sub (a b : JSNum) : JSNum := add a (neg b)

/-- JavaScript `*` on numbers (IEEE multiplication). -/
def mul : JSNum → JSNum → JSNum
  | num x, num y => num (x * y)
  | num x, posInf => if 0 < x then posInf else if x < 0 then negInf else nan
  | num x, negInf => if 0 < x then negInf else if x < 0 then posInf else nan
  | posInf, num y => if 0 < y then posInf else if y < 0 then negInf else nan
  | negInf, num y => if 0 < y then negInf else if y < 0 then posInf else nan
  | posInf, posInf => posInf
  | posInf, negInf => negInf
  | negInf, posInf => negInf
  | negInf, negInf => posInf
  | _, _ => nan

/-- JavaScript `/` on numbers (IEEE division; `0/0 = NaN`, `x/0 = ±∞`). -/
def div : JSNum → JSNum → JSNum
  | num x, num y =>
      if y = 0 then (if x = 0 then nan else if 0 < x then posInf else negInf)
      else num (x / y)
  | num _, posInf => num 0
  | num _, negInf => num 0
  | posInf, num y => if 0 ≤ y then posInf else negInf
  | negInf, num y => if 0 ≤ y then negInf else posInf
  | _, _ => nan

/-- JavaScript `Math.sqrt` (`NaN` on negative inputs). -/
def sqrt : JSNum → JSNum
  | num x => if x < 0 then nan else num (Real.sqrt x)
  | posInf => posInf
  | _ => nan

instance : Add JSNum := ⟨add⟩
instance : Neg JSNum := ⟨neg⟩
instance : Sub JSNum := ⟨sub⟩
instance : Mul JSNum := ⟨mul⟩

@[simp] theorem num_add_num (x y : ℝ) : num x + num y = num (x + y) := rfl

@[simp] theorem num_mul_num (x y : ℝ) : num x * num y = num (x * y) := rfl

@[simp] theorem num_sub_num (x y : ℝ) : num x - num y = num (x - y) := by
  show sub _ _ = _
  simp [sub, add, neg, sub_eq_add_neg]

@[simp] theorem add_nan (a : JSNum) : a + nan = nan := by
  show add a nan = nan
  cases a <;> rfl

@[simp] theorem nan_add (a : JSNum) : nan + a = nan := by
  show add nan a = nan
  cases a <;> rfl

@[simp] theorem mul_nan (a : JSNum) : a * nan = nan := by
  show mul a nan = nan
  cases a <;> rfl

@[simp] theorem nan_mul (a : JSNum) : nan * a = nan := by
  show mul nan a = nan
  cases a <;> rfl

@[simp] theorem sub_nan (a : JSNum) : a - nan = nan := by
  show sub a nan = nan
  cases a <;> rfl

@[simp] theorem nan_sub (a : JSNum) : nan - a = nan := by
  show sub nan a = nan
  cases a <;> rfl

@[simp] theorem div_nan (a : JSNum) : div a nan = nan := by
  cases a <;> rfl

@[simp] theorem nan_div (a : JSNum) : div nan a = nan := by
  cases a <;> rfl

@[simp] theorem sqrt_nan : sqrt nan = nan := rfl

theorem div_num_num_of_ne (x y : ℝ) (hy : y ≠ 0) :
    div (num x) (num y) = num (x / y) := by
  simp [div, hy]

theorem div_zero_zero : div (num 0) (num 0) = nan := by
  simp [div]

theorem sqrt_num_of_nonneg (x : ℝ) (hx : 0 ≤ x) :
    sqrt (num x) = num (Real.sqrt x) := by
  simp [sqrt, not_lt.mpr hx]

end JSNum

/-- A signal tower as placed by the UI: `{ id, lat, lng }`.  The engine only
reads `lat` and `lng`; `id` is an opaque identifier. -/
structure Tower where
  id : ℤ
  lat : ℝ
  lng : ℝ

/-- A sample produced by the grid builder: `{ lat, lng, hdop, res }`. -/
structure GridPoint where
  lat : ℝ
  lng : ℝ
  hdop : JSNum
  res : ℝ

/-- `mathTranspose(m)` from the source:
`m[0].map((_, i) => m.map(row => row[i]))`.
An out-of-bounds access `row[i]` yields `undefined` in JavaScript, which any
subsequent arithmetic turns into `NaN`; the embedding uses `JSNum.nan` as the
out-of-bounds default (the entries are only ever consumed arithmetically). -/
def mathTranspose (m : List (List JSNum)) : List (List JSNum) :=
  (m.headD []).mapIdx fun i _ => m.map fun row => row.getD i JSNum.nan

/-- `mathMultiply(a, b)` from the source:
`a.map(row => b[0].map((_, j) => row.reduce((sum, v, i) => sum + v * b[i][j], 0)))`.
The indexed `reduce` is embedded as a fold over `row.enum`; out-of-bounds
accesses to `b` again default to `JSNum.nan`. -/
def mathMultiply (a b : List (List JSNum)) : List (List JSNum) :=
  a.map fun row =>
    (b.headD []).mapIdx fun j _ =>
      row.enum.foldl (fun sum p => sum + p.2 * ((b.getD p.1 []).getD j JSNum.nan))
        (JSNum.num 0)

/-- One row of the design matrix built inside `computeHdop`:
`const dx = t.lng - lng; const dy = t.lat - lat;`
`const norm = Math.sqrt(dx*dx + dy*dy); return [dx/norm, dy/norm];`
The divisions are the first operations that can produce an IEEE special
value (`0/0 = NaN` when the tower coincides with the query point). -/
def losRow (lat lng : ℝ) (t : Tower) : List JSNum :=
  let dx : ℝ := t.lng - lng
  let dy : ℝ := t.lat - lat
  let norm : ℝ := Real.sqrt (dx * dx + dy * dy)
  [(JSNum.num dx).div (JSNum.num norm), (JSNum.num dy).div (JSNum.num norm)]

/-- The design matrix `A = towers.map(...)` of `computeHdop`. -/
def designMatrix (lat lng : ℝ) (towers : List Tower) : List (List JSNum) :=
  towers.map (losRow lat lng)

/-- The normal matrix `G = mathMultiply(mathTranspose(A), A)` of `computeHdop`. -/
def normalMatrix (lat lng : ℝ) (towers : List Tower) : List (List JSNum) :=
  mathMultiply (mathTranspose (designMatrix lat lng towers)) (designMatrix lat lng towers)

/-- Entry `G[i][j]` of the normal matrix (out-of-bounds defaults to `NaN`,
matching `undefined` entering arithmetic). -/
def gEntry (lat lng : ℝ) (towers : List Tower) (i j : ℕ) : JSNum :=
  ((normalMatrix lat lng towers).getD i []).getD j JSNum.nan

/-- `const det = G[0][0]*G[1][1] - G[0][1]*G[1][0]` of `computeHdop`. -/
def detG (lat lng : ℝ) (towers : List Tower) : JSNum :=
  gEntry lat lng towers 0 0 * gEntry lat lng towers 1 1 -
    gEntry lat lng towers 0 1 * gEntry lat lng towers 1 0

/-- `computeHdop(lat, lng, towers)` from the source.  Returns `100` for fewer
than 3 towers, `100` when `det === 0`, and otherwise
`Math.sqrt(inv[0][0] + inv[1][1])` with `inv` the closed-form inverse of `G`. -/
def computeHdop (lat lng : ℝ) (towers : List Tower) : JSNum :=
  if towers.length < 3 then JSNum.num 100
  else
    let det := detG lat lng towers
    if det = JSNum.num 0 then JSNum.num 100
    else
      let inv : List (List JSNum) :=
        [[(gEntry lat lng towers 1 1).div det, ((gEntry lat lng towers 0 1).neg).div det],
         [((gEntry lat lng towers 1 0).neg).div det, (gEntry lat lng towers 0 0).div det]]
      JSNum.sqrt (((inv.getD 0 []).getD 0 JSNum.nan) + ((inv.getD 1 []).getD 1 JSNum.nan))

/-- `latMin` of `generateGrid`: `latMin = 90` then `latMin = Math.min(latMin, t.lat)`
over the towers (a left fold). -/
def bboxLatMin (towers : List Tower) : ℝ :=
  towers.foldl (fun m t => min m t.lat) 90

/-- `latMax` of `generateGrid` (initial value `-90`, folded with `Math.max`). -/
def bboxLatMax (towers : List Tower) : ℝ :=
  towers.foldl (fun m t => max m t.lat) (-90)

/-- `lngMin` of `generateGrid` (initial value `180`, folded with `Math.min`). -/
def bboxLngMin (towers : List Tower) : ℝ :=
  towers.foldl (fun m t => min m t.lng) 180

/-- `lngMax` of `generateGrid` (initial value `-180`, folded with `Math.max`). -/
def bboxLngMax (towers : List Tower) : ℝ :=
  towers.foldl (fun m t => max m t.lng) (-180)

/-- One axis of the grid loop `for (let v = lo; v <= hi; v += res)` in exact
real arithmetic: after `k` increments the running value is `lo + k * res`, so
for `0 < res` the loop emits `lo + k * res` for every `0 ≤ k ≤ ⌊(hi - lo)/res⌋`.
For `lo > hi` the body never runs.  For `res ≤ 0` with `lo ≤ hi` the source
loop does not terminate; no claim concerns that case and the embedding
returns `[]` there. -/
def gridAxis (lo hi res : ℝ) : List ℝ :=
  if 0 < res ∧ lo ≤ hi then
    (List.range (⌊(hi - lo) / res⌋₊ + 1)).map fun k : ℕ => lo + (k : ℝ) * res
  else []

/-- `generateGrid(towers, res)` from the source (source default `res = 0.0005`;
the resolution is passed explicitly here).  Nested loops over the bounding box,
emitting `{lat, lng, hdop: computeHdop(lat, lng, towers), res}`. -/
def generateGrid (towers : List Tower) (res : ℝ) : List GridPoint :=
  if towers.length < 3 then []
  else
    (gridAxis (bboxLatMin towers) (bboxLatMax towers) res).flatMap fun lat =>
      (gridAxis (bboxLngMin towers) (bboxLngMax towers) res).map fun lng =>
        { lat := lat, lng := lng, hdop := computeHdop lat lng towers, res := res }

/-- `const toRad = deg => deg * Math.PI / 180` from `findTowerClusterCenter`. -/
def toRad (deg : ℝ) : ℝ := deg * Real.pi / 180

/-- `const earthRadiusKm = 6371` from `findTowerClusterCenter`. -/
def earthRadiusKm : ℝ := 6371

/-- JavaScript `Math.atan2(y, x)` (standard two-argument arctangent; the
engine only ever calls it with non-negative arguments). -/
def atan2 (y x : ℝ) : ℝ :=
  if 0 < x then Real.arctan (y / x)
  else if x < 0 ∧ 0 ≤ y then Real.arctan (y / x) + Real.pi
  else if x < 0 ∧ y < 0 then Real.arctan (y / x) - Real.pi
  else if x = 0 ∧ 0 < y then Real.pi / 2
  else if x = 0 ∧ y < 0 then -(Real.pi / 2)
  else 0

/-- The nested `haversine` helper of `findTowerClusterCenter`, exactly as in
the source — including its longitude delta `const dLon = toRad(lat2 - lon1)`
(the source really subtracts `lon1` from `lat2`). -/
def haversine (lat1 lon1 lat2 lon2 : ℝ) : ℝ :=
  let dLat := toRad (lat2 - lat1)
  let dLon := toRad (lat2 - lon1)
  let a := Real.sin (dLat / 2) ^ 2 +
    Real.cos (toRad lat1) * Real.cos (toRad lat2) * Real.sin (dLon / 2) ^ 2
  earthRadiusKm * 2 * atan2 (Real.sqrt a) (Real.sqrt (1 - a))

/-- Modelled from the spec: `haversineDistanceKm` as §4.1 words it — the
standard haversine great-circle distance with longitude delta
`lon2 - lon1`, mean Earth radius 6371 km, angles in radians.  This is the
comparison definition for the spec's "standard haversine formula" wording;
the source's `haversine` above differs in its `dLon` line. -/
def haversineDistanceKmStd (lat1 lon1 lat2 lon2 : ℝ) : ℝ :=
  let dLat := toRad (lat2 - lat1)
  let dLon := toRad (lon2 - lon1)
  let a := Real.sin (dLat / 2) ^ 2 +
    Real.cos (toRad lat1) * Real.cos (toRad lat2) * Real.sin (dLon / 2) ^ 2
  earthRadiusKm * 2 * atan2 (Real.sqrt a) (Real.sqrt (1 - a))

/-- One iteration of the grouping loop of `findTowerClusterCenter`: scan the
existing groups in creation order; `push` the tower onto the first group that
has a member within `distanceThreshold` (haversine) of it; if none matches,
`push` a new singleton group at the end. -/
def placeTower (thr : ℝ) (base : Tower) : List (List Tower) → List (List Tower)
  | [] => [[base]]
  | g :: gs =>
      if ∃ t ∈ g, haversine t.lat t.lng base.lat base.lng < thr then
        (g ++ [base]) :: gs
      else
        g :: placeTower thr base gs

/-- The grouping loop of `findTowerClusterCenter`: towers processed in input
order, each placed by `placeTower`. -/
def buildGroups (thr : ℝ) (towers : List Tower) : List (List Tower) :=
  towers.foldl (fun groups base => placeTower thr base groups) []

/-- `findTowerClusterCenter(towers, distanceThreshold)` from the source
(source default threshold `0.3`; passed explicitly here).  Returns `null`
(`none`) for an empty tower list; otherwise greedily groups the towers,
selects `groups.reduce((a, b) => (a.length > b.length ? a : b), [])`, and
returns the arithmetic mean of `lat` and `lng` over that group. -/
def findTowerClusterCenter (towers : List Tower) (distanceThreshold : ℝ) :
    Option (ℝ × ℝ) :=
  if towers.length = 0 then none
  else
    let groups := buildGroups distanceThreshold towers
    let largest := groups.foldl (fun a b => if a.length > b.length then a else b) []
    let avgLat := (largest.foldl (fun sum t => sum + t.lat) 0) / (largest.length : ℝ)
    let avgLng := (largest.foldl (fun sum t => sum + t.lng) 0) / (largest.length : ℝ)
    some (avgLat, avgLng)

/-! ### Bounding-box helper lemmas -/

theorem foldl_min_le_init (f : Tower → ℝ) :
    ∀ (l : List Tower) (a : ℝ), l.foldl (fun m t => min m (f t)) a ≤ a := by
  intro l
  induction l with
  | nil => intro a; simp
  | cons t l ih =>
      intro a
      calc (t :: l).foldl (fun m t => min m (f t)) a
          = l.foldl (fun m t => min m (f t)) (min a (f t)) := rfl
        _ ≤ min a (f t) := ih _
        _ ≤ a := min_le_left _ _

theorem foldl_min_le_of_mem (f : Tower → ℝ) :
    ∀ (l : List Tower) (a : ℝ) (t : Tower), t ∈ l →
      l.foldl (fun m t => min m (f t)) a ≤ f t := by
  intro l
  induction l with
  | nil => intro a t ht; cases ht
  | cons s l ih =>
      intro a t ht
      rcases List.mem_cons.mp ht with h | h
      · subst h
        calc (t :: l).foldl (fun m t => min m (f t)) a
            = l.foldl (fun m t => min m (f t)) (min a (f t)) := rfl
          _ ≤ min a (f t) := foldl_min_le_init f l _
          _ ≤ f t := min_le_right _ _
      · exact ih _ t h

theorem le_foldl_max_init (f : Tower → ℝ) :
    ∀ (l : List Tower) (a : ℝ), a ≤ l.foldl (fun m t => max m (f t)) a := by
  intro l
  induction l with
  | nil => intro a; simp
  | cons t l ih =>
      intro a
      calc a ≤ max a (f t) := le_max_left _ _
        _ ≤ l.foldl (fun m t => max m (f t)) (max a (f t)) := ih _
        _ = (t :: l).foldl (fun m t => max m (f t)) a := rfl

theorem le_foldl_max_of_mem (f : Tower → ℝ) :
    ∀ (l : List Tower) (a : ℝ) (t : Tower), t ∈ l →
      f t ≤ l.foldl (fun m t => max m (f t)) a := by
  intro l
  induction l with
  | nil => intro a t ht; cases ht
  | cons s l ih =>
      intro a t ht
      rcases List.mem_cons.mp ht with h | h
      · subst h
        calc f t ≤ max a (f t) := le_max_right _ _
          _ ≤ l.foldl (fun m t => max m (f t)) (max a (f t)) := le_foldl_max_init f l _
          _ = (t :: l).foldl (fun m t => max m (f t)) a := rfl
      · exact ih _ t h

theorem bbox_mem_bounds {towers : List Tower} {t : Tower} (ht : t ∈ towers) :
    bboxLatMin towers ≤ t.lat ∧ t.lat ≤ bboxLatMax towers ∧
      bboxLngMin towers ≤ t.lng ∧ t.lng ≤ bboxLngMax towers :=
  ⟨foldl_min_le_of_mem (fun t => t.lat) towers 90 t ht,
   le_foldl_max_of_mem (fun t => t.lat) towers (-90) t ht,
   foldl_min_le_of_mem (fun t => t.lng) towers 180 t ht,
   le_foldl_max_of_mem (fun t => t.lng) towers (-180) t ht⟩

theorem bboxLat_le {towers : List Tower} (hne : towers ≠ []) :
    bboxLatMin towers ≤ bboxLatMax towers := by
  rcases List.exists_mem_of_ne_nil towers hne with ⟨t, ht⟩
  rcases bbox_mem_bounds ht with ⟨h1, h2, _, _⟩
  exact le_trans h1 h2

theorem bboxLng_le {towers : List Tower} (hne : towers ≠ []) :
    bboxLngMin towers ≤ bboxLngMax towers := by
  rcases List.exists_mem_of_ne_nil towers hne with ⟨t, ht⟩
  rcases bbox_mem_bounds ht with ⟨_, _, h3, h4⟩
  exact le_trans h3 h4

/-! ### Grid-axis lemmas -/

theorem gridAxis_mem {lo hi res v : ℝ} (hres : 0 < res) (hle : lo ≤ hi)
    (hv : v ∈ gridAxis lo hi res) : ∃ k : ℕ, v = lo + (k : ℝ) * res ∧ v ≤ hi := by
  rw [gridAxis, if_pos ⟨hres, hle⟩] at hv
  rcases List.mem_map.mp hv with ⟨k, hk, rfl⟩
  refine ⟨k, rfl, ?_⟩
  have hk' : k ≤ ⌊(hi - lo) / res⌋₊ := Nat.lt_succ_iff.mp (List.mem_range.mp hk)
  have hx : (0 : ℝ) ≤ (hi - lo) / res := div_nonneg (by linarith) (le_of_lt hres)
  have : (k : ℝ) ≤ (hi - lo) / res :=
    le_trans (Nat.cast_le.mpr hk') (Nat.floor_le hx)
  have : (k : ℝ) * res ≤ hi - lo := by
    rw [← le_div_iff hres] at *
    exact this
  linarith

theorem gridAxis_head (lo hi res : ℝ) (hres : 0 < res) (hle : lo ≤ hi) :
    ∃ l, gridAxis lo hi res = lo :: l := by
  rw [gridAxis, if_pos ⟨hres, hle⟩, List.range_succ_eq_map, List.map_cons]
  refine ⟨(List.range ⌊(hi - lo) / res⌋₊).map ((fun k : ℕ => lo + (k : ℝ) * res) ∘ Nat.succ), ?_⟩
  rw [List.map_map]
  congr 1
  norm_num

/-! ### Grid structure lemmas -/

theorem generateGrid_mem {towers : List Tower} {res : ℝ} {p : GridPoint}
    (h : p ∈ generateGrid towers res) :
    ∃ lat lng, lat ∈ gridAxis (bboxLatMin towers) (bboxLatMax towers) res ∧
      lng ∈ gridAxis (bboxLngMin towers) (bboxLngMax towers) res ∧
      p = { lat := lat, lng := lng, hdop := computeHdop lat lng towers, res := res } := by
  by_cases hlen : towers.length < 3
  · rw [generateGrid, if_pos hlen] at h
    cases h
  · rw [generateGrid, if_neg hlen] at h
    rcases List.mem_flatMap.mp h with ⟨lat, hlat, hm⟩
    rcases List.mem_map.mp hm with ⟨lng, hlng, rfl⟩
    exact ⟨lat, lng, hlat, hlng, rfl⟩

theorem generateGrid_hdop {towers : List Tower} {res : ℝ} {p : GridPoint}
    (h : p ∈ generateGrid towers res) :
    p.hdop = computeHdop p.lat p.lng towers ∧ p.res = res := by
  rcases generateGrid_mem h with ⟨lat, lng, _, _, rfl⟩
  exact ⟨rfl, rfl⟩

/-! ### Real-valued components of the design matrix

When a tower does not coincide with the query point, its line-of-sight row
consists of the ordinary real values below. -/

/-- Real value of the first entry of a line-of-sight row (`dx / norm`). -/
def losX (lat lng : ℝ) (t : Tower) : ℝ :=
  (t.lng - lng) / Real.sqrt ((t.lng - lng) * (t.lng - lng) + (t.lat - lat) * (t.lat - lat))

/-- Real value of the second entry of a line-of-sight row (`dy / norm`). -/
def losY (lat lng : ℝ) (t : Tower) : ℝ :=
  (t.lat - lat) / Real.sqrt ((t.lng - lng) * (t.lng - lng) + (t.lat - lat) * (t.lat - lat))

theorem losNorm_pos {lat lng : ℝ} {t : Tower} (h : ¬(t.lat = lat ∧ t.lng = lng)) :
    0 < Real.sqrt ((t.lng - lng) * (t.lng - lng) + (t.lat - lat) * (t.lat - lat)) := by
  apply Real.sqrt_pos.mpr
  rcases not_and_or.mp h with h' | h'
  · have : t.lat - lat ≠ 0 := sub_ne_zero.mpr h'
    nlinarith [mul_self_nonneg (t.lng - lng), mul_self_pos.mpr this]
  · have : t.lng - lng ≠ 0 := sub_ne_zero.mpr h'
    nlinarith [mul_self_nonneg (t.lat - lat), mul_self_pos.mpr this]

theorem losRow_eq_num {lat lng : ℝ} {t : Tower} (h : ¬(t.lat = lat ∧ t.lng = lng)) :
    losRow lat lng t = [JSNum.num (losX lat lng t), JSNum.num (losY lat lng t)] := by
  have hn := losNorm_pos h
  rw [losRow]
  rw [JSNum.div_num_num_of_ne _ _ (ne_of_gt hn), JSNum.div_num_num_of_ne _ _ (ne_of_gt hn)]
  rfl

theorem losRow_nan {lat lng : ℝ} {t : Tower} (h : t.lat = lat ∧ t.lng = lng) :
    losRow lat lng t = [JSNum.nan, JSNum.nan] := by
  rw [losRow]
  have hx : t.lng - lng = 0 := sub_eq_zero.mpr h.2
  have hy : t.lat - lat = 0 := sub_eq_zero.mpr h.1
  rw [hx, hy]
  norm_num [JSNum.div]

/-! ### The dot-product fold of `mathMultiply` -/

/-- The inner indexed `reduce` of `mathMultiply` (dot product of a row of `a`
with column `j` of `b`). -/
def colDot (b : List (List JSNum)) (r : List JSNum) (j : ℕ) : JSNum :=
  r.enum.foldl (fun sum p => sum + p.2 * ((b.getD p.1 []).getD j JSNum.nan))
    (JSNum.num 0)

theorem mathMultiply_eq_colDot (a b : List (List JSNum)) :
    mathMultiply a b = a.map fun row => (b.headD []).mapIdx fun j _ => colDot b row j := rfl

theorem enum_foldl_dot (w : List ℝ) :
    ∀ (u : List ℝ) (k : ℕ) (acc : ℝ), k + u.length ≤ w.length →
      (List.enumFrom k (u.map JSNum.num)).foldl
          (fun s p => s + p.2 * ((w.map JSNum.num).getD p.1 JSNum.nan)) (JSNum.num acc)
        = JSNum.num (acc + ((u.zip (w.drop k)).map fun q => q.1 * q.2).sum) := by
  intro u
  induction u with
  | nil => intro k acc h; simp
  | cons x u ih =>
      intro k acc h
      have hk : k < w.length := by
        simp only [List.length_cons] at h
        omega
      have haccess : (w.map JSNum.num).getD k JSNum.nan = JSNum.num w[k] := by
        rw [List.getD_eq_getElem?_getD, List.getElem?_map,
          List.getElem?_eq_getElem hk]
        rfl
      have hdrop : w.drop k = w[k] :: w.drop (k + 1) := List.drop_eq_getElem_cons hk
      rw [List.map_cons]
      show (List.enumFrom (k + 1) (u.map JSNum.num)).foldl _
          (JSNum.num acc + JSNum.num x * (w.map JSNum.num).getD k JSNum.nan) = _
      rw [haccess, JSNum.num_mul_num, JSNum.num_add_num,
        ih (k + 1) (acc + x * w[k]) (by simp only [List.length_cons] at h; omega),
        hdrop]
      simp only [List.zip_cons_cons, List.map_cons, List.sum_cons]
      congr 1
      ring

theorem pair_getD_zero (towers : List Tower) (u v : Tower → ℝ) :
    ∀ k : ℕ,
      ((towers.map fun t => [JSNum.num (u t), JSNum.num (v t)]).getD k []).getD 0 JSNum.nan
        = ((towers.map u).map JSNum.num).getD k JSNum.nan := by
  intro k
  induction towers generalizing k with
  | nil => simp [List.getD]
  | cons t ts ih =>
      cases k with
      | zero => rfl
      | succ k => simpa using ih k

theorem pair_getD_one (towers : List Tower) (u v : Tower → ℝ) :
    ∀ k : ℕ,
      ((towers.map fun t => [JSNum.num (u t), JSNum.num (v t)]).getD k []).getD 1 JSNum.nan
        = ((towers.map v).map JSNum.num).getD k JSNum.nan := by
  intro k
  induction towers generalizing k with
  | nil => simp [List.getD]
  | cons t ts ih =>
      cases k with
      | zero => rfl
      | succ k => simpa using ih k

theorem colDot_pair_zero (towers : List Tower) (u v c : Tower → ℝ) :
    colDot (towers.map fun t => [JSNum.num (u t), JSNum.num (v t)])
        ((towers.map c).map JSNum.num) 0
      = JSNum.num ((towers.map fun t => c t * u t).sum) := by
  rw [colDot, List.enum]
  simp only [pair_getD_zero towers u v]
  rw [enum_foldl_dot (towers.map u) (towers.map c) 0 0 (by simp)]
  simp only [List.drop_zero, List.zip_map', List.map_map, zero_add]
  rfl

theorem colDot_pair_one (towers : List Tower) (u v c : Tower → ℝ) :
    colDot (towers.map fun t => [JSNum.num (u t), JSNum.num (v t)])
        ((towers.map c).map JSNum.num) 1
      = JSNum.num ((towers.map fun t => c t * v t).sum) := by
  rw [colDot, List.enum]
  simp only [pair_getD_one towers u v]
  rw [enum_foldl_dot (towers.map v) (towers.map c) 0 0 (by simp)]
  simp only [List.drop_zero, List.zip_map', List.map_map, zero_add]
  rfl

theorem losRow_explicit (lat lng : ℝ) (t : Tower) : losRow lat lng t =
    [(JSNum.num (t.lng - lng)).div
        (JSNum.num (Real.sqrt ((t.lng - lng) * (t.lng - lng) + (t.lat - lat) * (t.lat - lat)))),
     (JSNum.num (t.lat - lat)).div
        (JSNum.num (Real.sqrt ((t.lng - lng) * (t.lng - lng) + (t.lat - lat) * (t.lat - lat))))] :=
  rfl

theorem mathTranspose_design (lat lng : ℝ) (t0 : Tower) (ts : List Tower) :
    mathTranspose (designMatrix lat lng (t0 :: ts)) =
      [(designMatrix lat lng (t0 :: ts)).map (fun row => row.getD 0 JSNum.nan),
       (designMatrix lat lng (t0 :: ts)).map (fun row => row.getD 1 JSNum.nan)] := by
  rw [mathTranspose]
  have hh : (designMatrix lat lng (t0 :: ts)).headD [] = losRow lat lng t0 := rfl
  rw [hh, losRow_explicit]
  simp only [List.mapIdx_cons, List.mapIdx_nil]

theorem mathTranspose_pairs (towers : List Tower) (t0 : Tower) (ts : List Tower)
    (h : towers = t0 :: ts) (u v : Tower → ℝ) :
    mathTranspose (towers.map fun t => [JSNum.num (u t), JSNum.num (v t)]) =
      [(towers.map u).map JSNum.num, (towers.map v).map JSNum.num] := by
  rw [mathTranspose]
  have hh : (towers.map fun t => [JSNum.num (u t), JSNum.num (v t)]).headD []
      = [JSNum.num (u t0), JSNum.num (v t0)] := by rw [h]; rfl
  rw [hh]
  simp only [List.mapIdx_cons, List.mapIdx_nil]
  congr 1
  · rw [List.map_map, List.map_map]
    rfl
  · congr 1
    rw [List.map_map, List.map_map]
    rfl

theorem mathMultiply_pairs (towers : List Tower) (t0 : Tower) (ts : List Tower)
    (h : towers = t0 :: ts) (u v : Tower → ℝ) :
    mathMultiply [(towers.map u).map JSNum.num, (towers.map v).map JSNum.num]
        (towers.map fun t => [JSNum.num (u t), JSNum.num (v t)]) =
      [[JSNum.num ((towers.map fun t => u t * u t).sum),
        JSNum.num ((towers.map fun t => u t * v t).sum)],
       [JSNum.num ((towers.map fun t => v t * u t).sum),
        JSNum.num ((towers.map fun t => v t * v t).sum)]] := by
  rw [mathMultiply_eq_colDot]
  have hh : (towers.map fun t => [JSNum.num (u t), JSNum.num (v t)]).headD []
      = [JSNum.num (u t0), JSNum.num (v t0)] := by rw [h]; rfl
  rw [hh]
  simp only [List.map_cons, List.map_nil, List.mapIdx_cons, List.mapIdx_nil]
  rw [colDot_pair_zero towers u v u, colDot_pair_one towers u v u,
    colDot_pair_zero towers u v v, colDot_pair_one towers u v v]

/-! ### The normal matrix in the non-degenerate case -/

/-- Real value of `G[0][0]` (sum of squared x-components). -/
def gXX (lat lng : ℝ) (towers : List Tower) : ℝ :=
  (towers.map fun t => losX lat lng t * losX lat lng t).sum

/-- Real value of `G[0][1]`. -/
def gXY (lat lng : ℝ) (towers : List Tower) : ℝ :=
  (towers.map fun t => losX lat lng t * losY lat lng t).sum

/-- Real value of `G[1][0]`. -/
def gYX (lat lng : ℝ) (towers : List Tower) : ℝ :=
  (towers.map fun t => losY lat lng t * losX lat lng t).sum

/-- Real value of `G[1][1]` (sum of squared y-components). -/
def gYY (lat lng : ℝ) (towers : List Tower) : ℝ :=
  (towers.map fun t => losY lat lng t * losY lat lng t).sum

theorem normalMatrix_real (lat lng : ℝ) (t0 : Tower) (ts : List Tower)
    (hnc : ∀ t ∈ t0 :: ts, ¬(t.lat = lat ∧ t.lng = lng)) :
    normalMatrix lat lng (t0 :: ts) =
      [[JSNum.num (gXX lat lng (t0 :: ts)), JSNum.num (gXY lat lng (t0 :: ts))],
       [JSNum.num (gYX lat lng (t0 :: ts)), JSNum.num (gYY lat lng (t0 :: ts))]] := by
  have hA : designMatrix lat lng (t0 :: ts) =
      (t0 :: ts).map fun t => [JSNum.num (losX lat lng t), JSNum.num (losY lat lng t)] :=
    List.map_congr_left fun t ht => losRow_eq_num (hnc t ht)
  rw [normalMatrix, hA,
    mathTranspose_pairs (t0 :: ts) t0 ts rfl (losX lat lng) (losY lat lng),
    mathMultiply_pairs (t0 :: ts) t0 ts rfl (losX lat lng) (losY lat lng)]
  rfl

theorem detG_real (lat lng : ℝ) (t0 : Tower) (ts : List Tower)
    (hnc : ∀ t ∈ t0 :: ts, ¬(t.lat = lat ∧ t.lng = lng)) :
    detG lat lng (t0 :: ts) =
      JSNum.num (gXX lat lng (t0 :: ts) * gYY lat lng (t0 :: ts) -
        gXY lat lng (t0 :: ts) * gYX lat lng (t0 :: ts)) := by
  rw [detG]
  have h := normalMatrix_real lat lng t0 ts hnc
  rw [show gEntry lat lng (t0 :: ts) 0 0 =
      ((normalMatrix lat lng (t0 :: ts)).getD 0 []).getD 0 JSNum.nan from rfl]
  rw [show gEntry lat lng (t0 :: ts) 1 1 =
      ((normalMatrix lat lng (t0 :: ts)).getD 1 []).getD 1 JSNum.nan from rfl]
  rw [show gEntry lat lng (t0 :: ts) 0 1 =
      ((normalMatrix lat lng (t0 :: ts)).getD 0 []).getD 1 JSNum.nan from rfl]
  rw [show gEntry lat lng (t0 :: ts) 1 0 =
      ((normalMatrix lat lng (t0 :: ts)).getD 1 []).getD 0 JSNum.nan from rfl]
  rw [h]
  simp only [List.getD_cons_zero, List.getD_cons_succ]
  rw [JSNum.num_mul_num, JSNum.num_mul_num, JSNum.num_sub_num]

/-! ### Positivity facts about the normal matrix -/

theorem list_sq_sum_nonneg (l : List Tower) (f : Tower → ℝ) :
    0 ≤ (l.map fun t => f t * f t).sum := by
  apply List.sum_nonneg
  intro x hx
  rcases List.mem_map.mp hx with ⟨t, _, rfl⟩
  exact mul_self_nonneg _

theorem list_cauchy_schwarz (l : List Tower) (f g : Tower → ℝ) :
    ((l.map fun t => f t * g t).sum) ^ 2 ≤
      ((l.map fun t => f t * f t).sum) * ((l.map fun t => g t * g t).sum) := by
  induction l with
  | nil => simp
  | cons t l ih =>
      simp only [List.map_cons, List.sum_cons]
      have hf := list_sq_sum_nonneg l f
      have hg := list_sq_sum_nonneg l g
      rcases eq_or_lt_of_le hg with hQ0 | hQpos
      · have hS0 : (l.map fun t => f t * g t).sum = 0 := by
          have h2 : ((l.map fun t => f t * g t).sum) ^ 2 ≤ 0 := by
            calc ((l.map fun t => f t * g t).sum) ^ 2 ≤ _ := ih
              _ = 0 := by rw [← hQ0, mul_zero]
          have h3 := sq_nonneg ((l.map fun t => f t * g t).sum)
          have h4 : ((l.map fun t => f t * g t).sum) ^ 2 = 0 := le_antisymm h2 h3
          exact pow_eq_zero_iff (two_ne_zero) |>.mp h4
        rw [hS0, ← hQ0]
        nlinarith [hf, sq_nonneg (f t * g t), sq_nonneg (g t)]
      · have key : (g t) ^ 2 * (((l.map fun t => f t * g t).sum) ^ 2) ≤
            (g t) ^ 2 * (((l.map fun t => f t * f t).sum) * ((l.map fun t => g t * g t).sum)) :=
          mul_le_mul_of_nonneg_left ih (sq_nonneg (g t))
        nlinarith [ih, key, hQpos,
          sq_nonneg (g t * (l.map fun t => f t * g t).sum -
            f t * (l.map fun t => g t * g t).sum)]

theorem gYX_eq_gXY (lat lng : ℝ) (towers : List Tower) :
    gYX lat lng towers = gXY lat lng towers := by
  rw [gYX, gXY]
  congr 1
  exact List.map_congr_left fun t _ => mul_comm _ _

theorem detG_value_nonneg (lat lng : ℝ) (towers : List Tower) :
    0 ≤ gXX lat lng towers * gYY lat lng towers -
      gXY lat lng towers * gYX lat lng towers := by
  rw [gYX_eq_gXY]
  have h := list_cauchy_schwarz towers (losX lat lng) (losY lat lng)
  rw [← gXX, ← gXY, ← gYY] at h
  nlinarith [h]

/-! ### The two branches of `computeHdop` past the tower-count guard -/

theorem computeHdop_eq (lat lng : ℝ) (towers : List Tower) (h : ¬towers.length < 3) :
    computeHdop lat lng towers =
      if detG lat lng towers = JSNum.num 0 then JSNum.num 100
      else JSNum.sqrt ((gEntry lat lng towers 1 1).div (detG lat lng towers) +
        (gEntry lat lng towers 0 0).div (detG lat lng towers)) := by
  rw [computeHdop, if_neg h]
  rfl

theorem computeHdop_num_of_no_coincidence (lat lng : ℝ) (towers : List Tower)
    (hnc : ∀ t ∈ towers, ¬(t.lat = lat ∧ t.lng = lng)) :
    ∃ x : ℝ, 0 ≤ x ∧ computeHdop lat lng towers = JSNum.num x := by
  by_cases hlen : towers.length < 3
  · exact ⟨100, by norm_num, by rw [computeHdop, if_pos hlen]⟩
  · obtain ⟨t0, ts, rfl⟩ := List.exists_cons_of_ne_nil
      (show towers ≠ [] by rintro rfl; simp at hlen)
    rw [computeHdop_eq _ _ _ hlen]
    by_cases hd : detG lat lng (t0 :: ts) = JSNum.num 0
    · exact ⟨100, by norm_num, by rw [if_pos hd]⟩
    · rw [if_neg hd]
      have h00 : gEntry lat lng (t0 :: ts) 0 0 = JSNum.num (gXX lat lng (t0 :: ts)) := by
        rw [show gEntry lat lng (t0 :: ts) 0 0 =
            ((normalMatrix lat lng (t0 :: ts)).getD 0 []).getD 0 JSNum.nan from rfl,
          normalMatrix_real lat lng t0 ts hnc]
        rfl
      have h11 : gEntry lat lng (t0 :: ts) 1 1 = JSNum.num (gYY lat lng (t0 :: ts)) := by
        rw [show gEntry lat lng (t0 :: ts) 1 1 =
            ((normalMatrix lat lng (t0 :: ts)).getD 1 []).getD 1 JSNum.nan from rfl,
          normalMatrix_real lat lng t0 ts hnc]
        rfl
      have hdet := detG_real lat lng t0 ts hnc
      have hDne : gXX lat lng (t0 :: ts) * gYY lat lng (t0 :: ts) -
          gXY lat lng (t0 :: ts) * gYX lat lng (t0 :: ts) ≠ 0 := by
        intro h0
        apply hd
        rw [hdet, h0]
      have hDpos : 0 < gXX lat lng (t0 :: ts) * gYY lat lng (t0 :: ts) -
          gXY lat lng (t0 :: ts) * gYX lat lng (t0 :: ts) :=
        lt_of_le_of_ne (detG_value_nonneg lat lng (t0 :: ts)) (Ne.symm hDne)
      rw [h00, h11, hdet, JSNum.div_num_num_of_ne _ _ hDne,
        JSNum.div_num_num_of_ne _ _ hDne, JSNum.num_add_num]
      have hT : 0 ≤ gYY lat lng (t0 :: ts) /
            (gXX lat lng (t0 :: ts) * gYY lat lng (t0 :: ts) -
              gXY lat lng (t0 :: ts) * gYX lat lng (t0 :: ts)) +
          gXX lat lng (t0 :: ts) /
            (gXX lat lng (t0 :: ts) * gYY lat lng (t0 :: ts) -
              gXY lat lng (t0 :: ts) * gYX lat lng (t0 :: ts)) := by
        have hx : 0 ≤ gXX lat lng (t0 :: ts) := list_sq_sum_nonneg _ _
        have hy : 0 ≤ gYY lat lng (t0 :: ts) := list_sq_sum_nonneg _ _
        have := le_of_lt hDpos
        positivity
      rw [JSNum.sqrt_num_of_nonneg _ hT]
      exact ⟨_, Real.sqrt_nonneg _, rfl⟩

/-! ### NaN propagation when a tower coincides with the query point -/

theorem foldl_dot_nan_acc (F : ℕ → JSNum) :
    ∀ l : List (ℕ × JSNum),
      l.foldl (fun s p => s + p.2 * F p.1) JSNum.nan = JSNum.nan := by
  intro l
  induction l with
  | nil => rfl
  | cons p l ih =>
      calc ((p :: l).foldl (fun s p => s + p.2 * F p.1) JSNum.nan)
          = l.foldl (fun s p => s + p.2 * F p.1) (JSNum.nan + p.2 * F p.1) := rfl
        _ = l.foldl (fun s p => s + p.2 * F p.1) JSNum.nan := by rw [JSNum.nan_add]
        _ = JSNum.nan := ih

theorem foldl_dot_nan_mem (F : ℕ → JSNum) :
    ∀ (r : List JSNum) (k : ℕ) (s : JSNum), JSNum.nan ∈ r →
      (List.enumFrom k r).foldl (fun s p => s + p.2 * F p.1) s = JSNum.nan := by
  intro r
  induction r with
  | nil => intro k s h; cases h
  | cons x r ih =>
      intro k s h
      rcases List.mem_cons.mp h with h' | h'
      · subst h'
        calc (List.enumFrom k (JSNum.nan :: r)).foldl (fun s p => s + p.2 * F p.1) s
            = (List.enumFrom (k + 1) r).foldl (fun s p => s + p.2 * F p.1)
                (s + JSNum.nan * F k) := rfl
          _ = (List.enumFrom (k + 1) r).foldl (fun s p => s + p.2 * F p.1) JSNum.nan := by
              rw [JSNum.nan_mul, JSNum.add_nan]
          _ = JSNum.nan := foldl_dot_nan_acc F _
      · exact ih (k + 1) _ h'

theorem colDot_nan (b : List (List JSNum)) (r : List JSNum) (j : ℕ)
    (h : JSNum.nan ∈ r) : colDot b r j = JSNum.nan := by
  rw [colDot, List.enum]
  exact foldl_dot_nan_mem (fun k => (b.getD k []).getD j JSNum.nan) r 0 (JSNum.num 0) h

theorem normalMatrix_nan (lat lng : ℝ) (t0 : Tower) (ts : List Tower)
    (hc : ∃ t ∈ t0 :: ts, t.lat = lat ∧ t.lng = lng) :
    normalMatrix lat lng (t0 :: ts) =
      [[JSNum.nan, JSNum.nan], [JSNum.nan, JSNum.nan]] := by
  obtain ⟨tc, htc, hcc⟩ := hc
  have hmem : ∀ i : ℕ, JSNum.nan ∈
      (designMatrix lat lng (t0 :: ts)).map fun row => row.getD i JSNum.nan := by
    intro i
    apply List.mem_map.mpr
    refine ⟨losRow lat lng tc, List.mem_map.mpr ⟨tc, htc, rfl⟩, ?_⟩
    rw [losRow_nan hcc]
    match i with
    | 0 => rfl
    | 1 => rfl
    | Nat.succ (Nat.succ _) => rfl
  rw [normalMatrix, mathTranspose_design, mathMultiply_eq_colDot]
  have hh : (designMatrix lat lng (t0 :: ts)).headD [] = losRow lat lng t0 := rfl
  rw [hh, losRow_explicit]
  simp only [List.map_cons, List.map_nil, List.mapIdx_cons, List.mapIdx_nil]
  rw [colDot_nan _ _ _ (hmem 0), colDot_nan _ _ _ (hmem 0),
    colDot_nan _ _ _ (hmem 1), colDot_nan _ _ _ (hmem 1)]

theorem computeHdop_nan_of_coincident (lat lng : ℝ) (towers : List Tower)
    (hlen : 3 ≤ towers.length) (hc : ∃ t ∈ towers, t.lat = lat ∧ t.lng = lng) :
    computeHdop lat lng towers = JSNum.nan := by
  have hlen' : ¬towers.length < 3 := not_lt.mpr hlen
  obtain ⟨t0, ts, rfl⟩ := List.exists_cons_of_ne_nil
    (show towers ≠ [] by rintro rfl; simp at hlen)
  have hG := normalMatrix_nan lat lng t0 ts hc
  have e00 : gEntry lat lng (t0 :: ts) 0 0 = JSNum.nan := by
    rw [show gEntry lat lng (t0 :: ts) 0 0 =
        ((normalMatrix lat lng (t0 :: ts)).getD 0 []).getD 0 JSNum.nan from rfl, hG]
    rfl
  have e01 : gEntry lat lng (t0 :: ts) 0 1 = JSNum.nan := by
    rw [show gEntry lat lng (t0 :: ts) 0 1 =
        ((normalMatrix lat lng (t0 :: ts)).getD 0 []).getD 1 JSNum.nan from rfl, hG]
    rfl
  have e10 : gEntry lat lng (t0 :: ts) 1 0 = JSNum.nan := by
    rw [show gEntry lat lng (t0 :: ts) 1 0 =
        ((normalMatrix lat lng (t0 :: ts)).getD 1 []).getD 0 JSNum.nan from rfl, hG]
    rfl
  have e11 : gEntry lat lng (t0 :: ts) 1 1 = JSNum.nan := by
    rw [show gEntry lat lng (t0 :: ts) 1 1 =
        ((normalMatrix lat lng (t0 :: ts)).getD 1 []).getD 1 JSNum.nan from rfl, hG]
    rfl
  have hdet : detG lat lng (t0 :: ts) = JSNum.nan := by
    rw [detG, e00, e01, e10, e11]
    rfl
  rw [computeHdop_eq _ _ _ hlen', hdet]
  rw [if_neg (by intro h; cases h)]
  rw [e00, e11]
  rfl

/-! ### Clustering: the greedy grouping partitions the towers -/

theorem placeTower_join_perm (thr : ℝ) (base : Tower) :
    ∀ gs : List (List Tower),
      (placeTower thr base gs).join.Perm (base :: gs.join) := by
  intro gs
  induction gs with
  | nil => simp [placeTower]
  | cons g gs ih =>
      rw [placeTower]
      by_cases hc : ∃ t ∈ g, haversine t.lat t.lng base.lat base.lng < thr
      · rw [if_pos hc]
        have h1 : ((g ++ [base]) :: gs).join = g ++ base :: gs.join := by simp
        have h2 : (g :: gs).join = g ++ gs.join := by simp
        rw [h1, h2]
        exact List.perm_middle
      · rw [if_neg hc]
        have h1 : (g :: placeTower thr base gs).join
            = g ++ (placeTower thr base gs).join := by simp
        have h2 : (g :: gs).join = g ++ gs.join := by simp
        rw [h1, h2]
        exact (ih.append_left g).trans List.perm_middle

theorem foldl_place_join_perm (thr : ℝ) :
    ∀ (ts : List Tower) (gs : List (List Tower)),
      ((ts.foldl (fun groups base => placeTower thr base groups) gs).join).Perm
        (gs.join ++ ts) := by
  intro ts
  induction ts with
  | nil => intro gs; simp
  | cons t ts ih =>
      intro gs
      have h0 : (t :: ts).foldl (fun groups base => placeTower thr base groups) gs
          = ts.foldl (fun groups base => placeTower thr base groups)
              (placeTower thr t gs) := rfl
      rw [h0]
      refine (ih (placeTower thr t gs)).trans ?_
      refine (((placeTower_join_perm thr t gs).append_right ts).trans ?_)
      have h1 : (t :: gs.join) ++ ts = t :: (gs.join ++ ts) := rfl
      rw [h1]
      exact List.perm_middle.symm

theorem buildGroups_join_perm (thr : ℝ) (towers : List Tower) :
    ((buildGroups thr towers).join).Perm towers := by
  have h := foldl_place_join_perm thr towers []
  simpa [buildGroups] using h

/-! ### Clustering: the `reduce` that selects the largest group -/

theorem foldl_pick_spec (gs : List (List Tower)) :
    ∀ a0 : List Tower,
      ((∀ g ∈ gs, g.length < a0.length) ∧
        gs.foldl (fun a b => if a.length > b.length then a else b) a0 = a0) ∨
      ∃ pre r suf, gs = pre ++ r :: suf ∧
        gs.foldl (fun a b => if a.length > b.length then a else b) a0 = r ∧
        a0.length ≤ r.length ∧ (∀ g ∈ pre, g.length ≤ r.length) ∧
        ∀ g ∈ suf, g.length < r.length := by
  induction gs with
  | nil => intro a0; left; exact ⟨by simp, rfl⟩
  | cons g gs ih =>
      intro a0
      by_cases hgt : a0.length > g.length
      · have hstep : (g :: gs).foldl (fun a b => if a.length > b.length then a else b) a0
            = gs.foldl (fun a b => if a.length > b.length then a else b) a0 := by
          rw [List.foldl_cons, if_pos hgt]
        rcases ih a0 with ⟨hall, heq⟩ | ⟨pre, r, suf, hsplit, heq, hle, hpre, hsuf⟩
        · left
          refine ⟨?_, by rw [hstep, heq]⟩
          intro x hx
          rcases List.mem_cons.mp hx with h' | h'
          · subst h'; exact hgt
          · exact hall x h'
        · right
          refine ⟨g :: pre, r, suf, by rw [hsplit]; rfl, by rw [hstep, heq], hle, ?_, hsuf⟩
          intro x hx
          rcases List.mem_cons.mp hx with h' | h'
          · subst h'
            exact le_trans (le_of_lt hgt) hle
          · exact hpre x h'
      · have hstep : (g :: gs).foldl (fun a b => if a.length > b.length then a else b) a0
            = gs.foldl (fun a b => if a.length > b.length then a else b) g := by
          rw [List.foldl_cons, if_neg hgt]
        rcases ih g with ⟨hall, heq⟩ | ⟨pre, r, suf, hsplit, heq, hle, hpre, hsuf⟩
        · right
          exact ⟨[], g, gs, rfl, by rw [hstep, heq], not_lt.mp hgt, by simp, hall⟩
        · right
          refine ⟨g :: pre, r, suf, by rw [hsplit]; rfl, by rw [hstep, heq],
            le_trans (not_lt.mp hgt) hle, ?_, hsuf⟩
          intro x hx
          rcases List.mem_cons.mp hx with h' | h'
          · subst h'; exact hle
          · exact hpre x h'

theorem placeTower_ne_nil (thr : ℝ) (base : Tower) :
    ∀ gs : List (List Tower), placeTower thr base gs ≠ [] := by
  intro gs
  cases gs with
  | nil => simp [placeTower]
  | cons g gs =>
      rw [placeTower]
      by_cases hc : ∃ t ∈ g, haversine t.lat t.lng base.lat base.lng < thr
      · rw [if_pos hc]; simp
      · rw [if_neg hc]; simp

theorem foldl_place_ne_nil (thr : ℝ) :
    ∀ (ts : List Tower) (gs : List (List Tower)), gs ≠ [] →
      ts.foldl (fun groups base => placeTower thr base groups) gs ≠ [] := by
  intro ts
  induction ts with
  | nil => intro gs h; exact h
  | cons t ts ih => intro gs _; exact ih _ (placeTower_ne_nil thr t gs)

theorem buildGroups_ne_nil (thr : ℝ) (towers : List Tower) (h : towers ≠ []) :
    buildGroups thr towers ≠ [] := by
  obtain ⟨t0, ts, rfl⟩ := List.exists_cons_of_ne_nil h
  show (t0 :: ts).foldl (fun groups base => placeTower thr base groups) [] ≠ []
  rw [List.foldl_cons]
  exact foldl_place_ne_nil thr ts _ (placeTower_ne_nil thr t0 [])

theorem findTowerClusterCenter_eq (towers : List Tower) (thr : ℝ) (h : towers ≠ []) :
    findTowerClusterCenter towers thr =
      some ((((buildGroups thr towers).foldl
              (fun a b => if a.length > b.length then a else b) []).foldl
            (fun sum t => sum + t.lat) 0) /
          ((((buildGroups thr towers).foldl
              (fun a b => if a.length > b.length then a else b) []).length : ℝ)),
        (((buildGroups thr towers).foldl
              (fun a b => if a.length > b.length then a else b) []).foldl
            (fun sum t => sum + t.lng) 0) /
          ((((buildGroups thr towers).foldl
              (fun a b => if a.length > b.length then a else b) []).length : ℝ))) := by
  rw [findTowerClusterCenter, if_neg (by simpa using h)]

/-! ### Concrete haversine evaluations -/

theorem toRad_zero : toRad 0 = 0 := by
  rw [toRad]
  ring

theorem atan2_zero_one : atan2 0 1 = 0 := by
  rw [atan2, if_pos one_pos]
  norm_num

/-- The source's distance between two points that differ only in longitude is
`0`: both `dLat = toRad(lat2 - lat1)` and `dLon = toRad(lat2 - lon1)` collapse
when `lat1 = lat2 = lon1`, regardless of `lon2`. -/
theorem haversine_eq_lat_lon (c lon2 : ℝ) : haversine c c c lon2 = 0 := by
  rw [haversine]
  have h0 : toRad (c - c) = 0 := by rw [sub_self, toRad_zero]
  rw [h0]
  norm_num [Real.sin_zero, Real.sqrt_zero, Real.sqrt_one, atan2_zero_one]

theorem haversine_0_0_90_0 : haversine 0 0 90 0 = 6371 * Real.pi / 2 := by
  rw [haversine]
  have h90 : toRad (90 - 0) = Real.pi / 2 := by rw [toRad]; ring
  have h90' : toRad (90 : ℝ) = Real.pi / 2 := by rw [toRad]; ring
  have hsin : Real.sin (Real.pi / 2 / 2) ^ 2 = 1 / 2 := by
    rw [show Real.pi / 2 / 2 = Real.pi / 4 by ring, Real.sin_pi_div_four, div_pow,
      Real.sq_sqrt (by norm_num : (0:ℝ) ≤ 2)]
    norm_num
  rw [h90, h90', toRad_zero, Real.cos_zero, Real.cos_pi_div_two, hsin]
  have ha : (1:ℝ) / 2 + 1 * 0 * (1 / 2) = 1 / 2 := by norm_num
  rw [ha]
  have h12 : (1:ℝ) - 1 / 2 = 1 / 2 := by norm_num
  rw [h12]
  have hpos : 0 < Real.sqrt (1 / 2) := Real.sqrt_pos.mpr (by norm_num)
  rw [atan2, if_pos hpos, div_self (ne_of_gt hpos), Real.arctan_one, earthRadiusKm]
  ring

theorem haversine_0_0_90_0_not_close : ¬ haversine 0 0 90 0 < 0.3 := by
  rw [haversine_0_0_90_0]
  push_neg
  nlinarith [Real.pi_gt_three]

/-- The standard haversine distance between `(0°, 0°)` and `(0°, 90°)` —
two points on the equator a quarter of the Earth's circumference apart. -/
theorem haversineStd_0_0_0_90 :
    haversineDistanceKmStd 0 0 0 90 = 6371 * Real.pi / 2 := by
  rw [haversineDistanceKmStd]
  have h90 : toRad (90 - 0) = Real.pi / 2 := by rw [toRad]; ring
  have h00 : toRad ((0:ℝ) - 0) = 0 := by rw [sub_zero, toRad_zero]
  have hsin : Real.sin (Real.pi / 2 / 2) ^ 2 = 1 / 2 := by
    rw [show Real.pi / 2 / 2 = Real.pi / 4 by ring, Real.sin_pi_div_four, div_pow,
      Real.sq_sqrt (by norm_num : (0:ℝ) ≤ 2)]
    norm_num
  rw [h90, h00, toRad_zero, Real.cos_zero, hsin]
  have ha : Real.sin (0 / 2) ^ 2 + 1 * 1 * (1 / 2) = 1 / 2 := by
    norm_num [Real.sin_zero]
  rw [ha]
  have h12 : (1:ℝ) - 1 / 2 = 1 / 2 := by norm_num
  rw [h12]
  have hpos : 0 < Real.sqrt (1 / 2) := Real.sqrt_pos.mpr (by norm_num)
  rw [atan2, if_pos hpos, div_self (ne_of_gt hpos), Real.arctan_one, earthRadiusKm]
  ring

/-! ### Concrete clustering runs -/

theorem buildGroups_close :
    buildGroups 0.3 [⟨1, 0, 0⟩, ⟨2, 0, 0.0009⟩] =
      [[(⟨1, 0, 0⟩ : Tower), ⟨2, 0, 0.0009⟩]] := by
  have h1 : buildGroups 0.3 [⟨1, 0, 0⟩, ⟨2, 0, 0.0009⟩]
      = placeTower 0.3 ⟨2, 0, 0.0009⟩ [[(⟨1, 0, 0⟩ : Tower)]] := rfl
  have hcond : ∃ t ∈ [(⟨1, 0, 0⟩ : Tower)],
      haversine t.lat t.lng (⟨2, 0, 0.0009⟩ : Tower).lat (⟨2, 0, 0.0009⟩ : Tower).lng < 0.3 := by
    refine ⟨⟨1, 0, 0⟩, by simp, ?_⟩
    show haversine 0 0 0 0.0009 < 0.3
    rw [haversine_eq_lat_lon]
    norm_num
  rw [h1]
  simp only [placeTower]
  rw [if_pos hcond]
  rfl

theorem center_close :
    findTowerClusterCenter [⟨1, 0, 0⟩, ⟨2, 0, 0.0009⟩] 0.3 = some (0, 0.00045) := by
  rw [findTowerClusterCenter_eq _ _ (by simp), buildGroups_close]
  have hpick : ([[(⟨1, 0, 0⟩ : Tower), ⟨2, 0, 0.0009⟩]] : List (List Tower)).foldl
      (fun a b => if a.length > b.length then a else b) []
      = [(⟨1, 0, 0⟩ : Tower), ⟨2, 0, 0.0009⟩] := by
    rw [List.foldl_cons, List.foldl_nil, if_neg (by simp)]
  rw [hpick]
  norm_num [List.foldl_cons, List.foldl_nil]

theorem buildGroups_far :
    buildGroups 0.3 [⟨1, 0, 0⟩, ⟨2, 90, 0⟩] =
      [[(⟨1, 0, 0⟩ : Tower)], [(⟨2, 90, 0⟩ : Tower)]] := by
  have h1 : buildGroups 0.3 [⟨1, 0, 0⟩, ⟨2, 90, 0⟩]
      = placeTower 0.3 ⟨2, 90, 0⟩ [[(⟨1, 0, 0⟩ : Tower)]] := rfl
  have hncond : ¬ ∃ t ∈ [(⟨1, 0, 0⟩ : Tower)],
      haversine t.lat t.lng (⟨2, 90, 0⟩ : Tower).lat (⟨2, 90, 0⟩ : Tower).lng < 0.3 := by
    rintro ⟨t, ht, hlt⟩
    rw [List.mem_singleton] at ht
    subst ht
    exact haversine_0_0_90_0_not_close hlt
  rw [h1]
  simp only [placeTower]
  rw [if_neg hncond]

theorem center_far :
    findTowerClusterCenter [⟨1, 0, 0⟩, ⟨2, 90, 0⟩] 0.3 = some (90, 0) := by
  rw [findTowerClusterCenter_eq _ _ (by simp), buildGroups_far]
  have hpick : ([[(⟨1, 0, 0⟩ : Tower)], [(⟨2, 90, 0⟩ : Tower)]] : List (List Tower)).foldl
      (fun a b => if a.length > b.length then a else b) []
      = [(⟨2, 90, 0⟩ : Tower)] := by
    rw [List.foldl_cons, List.foldl_cons, List.foldl_nil, if_neg (by simp)]
  rw [hpick]
  norm_num [List.foldl_cons, List.foldl_nil]

theorem gridAxis_0_to_0002 : gridAxis 0 0.002 0.001 = [0, 0.001, 0.002] := by
  rw [gridAxis, if_pos (by norm_num)]
  have hf : ⌊((0.002:ℝ) - 0) / 0.001⌋₊ = 2 := by
    rw [show ((0.002:ℝ) - 0) / 0.001 = 2 by norm_num,
      show ((2:ℝ)) = ((2:ℕ):ℝ) by norm_num]
    exact Nat.floor_natCast 2
  rw [hf, show List.range 3 = [0, 1, 2] from rfl]
  norm_num

/-! ## Claims -/

/-- C1 (counterexample): the claim "for every query point and every tower
list, `computeHdop` returns a finite non-negative value or the sentinel 100"
fails on the code: with the three towers `(0,0)`, `(0,3)`, `(4,0)` and query
point `(0,0)`, the first tower coincides with the query point, its
line-of-sight normalization divides `0/0`, and the result is `NaN` — not an
ordinary number at all. -/
theorem hdop_finite_counterexample :
    ¬ ∃ x : ℝ, 0 ≤ x ∧
      computeHdop 0 0 [⟨1, 0, 0⟩, ⟨2, 0, 3⟩, ⟨3, 4, 0⟩] = JSNum.num x := by
  have h : computeHdop 0 0 [⟨1, 0, 0⟩, ⟨2, 0, 3⟩, ⟨3, 4, 0⟩] = JSNum.nan :=
    computeHdop_nan_of_coincident 0 0 _ (by simp) ⟨⟨1, 0, 0⟩, by simp, rfl, rfl⟩
  rintro ⟨x, _, hx⟩
  rw [h] at hx
  cases hx

/-- C1 (amended): for every query point that no tower coincides with exactly,
`computeHdop` returns a finite non-negative value or the sentinel 100 (both
are ordinary non-negative numbers), and likewise every `GridPoint` produced by
`generateGrid` whose coordinates coincide with no tower carries such an
`hdop`. -/
theorem hdop_finite_nonneg_amended :
    (∀ (lat lng : ℝ) (towers : List Tower),
        (∀ t ∈ towers, ¬(t.lat = lat ∧ t.lng = lng)) →
        ∃ x : ℝ, 0 ≤ x ∧ computeHdop lat lng towers = JSNum.num x) ∧
    ∀ (towers : List Tower) (res : ℝ) (p : GridPoint),
        p ∈ generateGrid towers res →
        (∀ t ∈ towers, ¬(t.lat = p.lat ∧ t.lng = p.lng)) →
        ∃ x : ℝ, 0 ≤ x ∧ p.hdop = JSNum.num x := by
  constructor
  · intro lat lng towers h
    exact computeHdop_num_of_no_coincidence lat lng towers h
  · intro towers res p hp hnc
    rcases generateGrid_hdop hp with ⟨h1, _⟩
    rw [h1]
    exact computeHdop_num_of_no_coincidence _ _ _ hnc

/-- C1 (witness): the amended theorem applied to the query point `(0,0)` and
three towers none of which sits at `(0,0)`. -/
theorem hdop_finite_nonneg_amended_witness :
    (∀ t ∈ [(⟨1, 0, 1⟩ : Tower), ⟨2, 0, 3⟩, ⟨3, 4, 0⟩], ¬(t.lat = 0 ∧ t.lng = 0)) ∧
    ∃ x : ℝ, 0 ≤ x ∧
      computeHdop 0 0 [⟨1, 0, 1⟩, ⟨2, 0, 3⟩, ⟨3, 4, 0⟩] = JSNum.num x := by
  have h : ∀ t ∈ [(⟨1, 0, 1⟩ : Tower), ⟨2, 0, 3⟩, ⟨3, 4, 0⟩],
      ¬(t.lat = 0 ∧ t.lng = 0) := by
    intro t ht
    rcases List.mem_cons.mp ht with rfl | ht
    · norm_num
    rcases List.mem_cons.mp ht with rfl | ht
    · norm_num
    rcases List.mem_cons.mp ht with rfl | ht
    · norm_num
    · cases ht
  exact ⟨h, hdop_finite_nonneg_amended.1 0 0 _ h⟩

/-- C2: with fewer than 3 towers `computeHdop` returns the sentinel 100 and
`generateGrid` returns the empty grid, for every query point and resolution;
and `findTowerClusterCenter` on an empty tower list returns `null` (`none`)
at every threshold.  All are plain return values, not errors. -/
theorem insufficient_towers_sentinels :
    (∀ (towers : List Tower) (lat lng res : ℝ), towers.length < 3 →
        computeHdop lat lng towers = JSNum.num 100 ∧ generateGrid towers res = []) ∧
    ∀ thr : ℝ, findTowerClusterCenter [] thr = none := by
  constructor
  · intro towers lat lng res h
    exact ⟨by rw [computeHdop, if_pos h], by rw [generateGrid, if_pos h]⟩
  · intro thr
    rw [findTowerClusterCenter,
      if_pos (show ([] : List Tower).length = 0 from rfl)]

/-- C2 (witness): the sentinel outputs on a concrete single-tower list. -/
theorem insufficient_towers_sentinels_witness :
    ([(⟨1, 2, 3⟩ : Tower)].length < 3) ∧
    computeHdop 5 6 [⟨1, 2, 3⟩] = JSNum.num 100 ∧
    generateGrid [⟨1, 2, 3⟩] 7 = [] := by
  have h : ([(⟨1, 2, 3⟩ : Tower)].length < 3) := by simp
  exact ⟨h, insufficient_towers_sentinels.1 [⟨1, 2, 3⟩] 5 6 7 h⟩

/-- C3: the source's `haversine` does NOT compute the standard haversine
great-circle distance: its longitude delta is `toRad(lat2 - lon1)` instead of
`toRad(lon2 - lon1)`.  For the two equator points `(0°,0°)` and `(0°,90°)`
(a quarter of the Earth's circumference apart) the source returns `0` km,
while the standard formula the spec describes returns `6371·π/2 ≈ 10007` km. -/
theorem haversine_lon_delta_defect :
    haversine 0 0 0 90 = 0 ∧
    haversineDistanceKmStd 0 0 0 90 = 6371 * Real.pi / 2 ∧
    haversine 0 0 0 90 ≠ haversineDistanceKmStd 0 0 0 90 := by
  refine ⟨haversine_eq_lat_lon 0 90, haversineStd_0_0_0_90, ?_⟩
  rw [haversine_eq_lat_lon 0 90, haversineStd_0_0_0_90]
  intro h
  nlinarith [Real.pi_gt_three]

/-- C4 (counterexample): for two towers far apart (here `(0,0)` and `(90,0)`,
which the source's distance keeps apart at threshold 0.3) the grouping yields
the two singleton groups in input order, yet `findTowerClusterCenter` returns
the SECOND tower's coordinates `(90, 0)` — not the first tower's coordinates
as the claim's tie rule ("first group to reach the maximum") asserts.  The
fold `(a, b) => a.length > b.length ? a : b` keeps the accumulator only on a
strict win, so ties go to the later group. -/
theorem cluster_tie_counterexample :
    findTowerClusterCenter [⟨1, 0, 0⟩, ⟨2, 90, 0⟩] 0.3 = some (90, 0) ∧
    buildGroups 0.3 [⟨1, 0, 0⟩, ⟨2, 90, 0⟩] =
      [[(⟨1, 0, 0⟩ : Tower)], [(⟨2, 90, 0⟩ : Tower)]] ∧
    findTowerClusterCenter [⟨1, 0, 0⟩, ⟨2, 90, 0⟩] 0.3 ≠ some (0, 0) := by
  refine ⟨center_far, buildGroups_far, ?_⟩
  rw [center_far]
  intro h
  simp only [Option.some.injEq, Prod.mk.injEq] at h
  exact absurd h.1 (by norm_num)

/-- C4 (amended): `findTowerClusterCenter` selects a group of maximal size,
breaking ties in favor of the LAST group of maximal size in creation order
(the left fold keeps the accumulator only under strict `>`), and returns the
arithmetic mean of `lat` and of `lng` over that group; two towers about
0.1 km apart (threshold 0.3) are grouped together and their midpoint is
returned, while for two far-apart towers the SECOND tower's singleton group
wins the tie and its coordinates are returned. -/
theorem cluster_largest_group_amended :
    (∀ (towers : List Tower) (thr : ℝ), towers ≠ [] →
      ∃ pre L suf, buildGroups thr towers = pre ++ L :: suf ∧
        (∀ g ∈ pre, g.length ≤ L.length) ∧
        (∀ g ∈ suf, g.length < L.length) ∧
        findTowerClusterCenter towers thr =
          some ((L.foldl (fun sum t => sum + t.lat) 0) / (L.length : ℝ),
            (L.foldl (fun sum t => sum + t.lng) 0) / (L.length : ℝ))) ∧
    findTowerClusterCenter [⟨1, 0, 0⟩, ⟨2, 0, 0.0009⟩] 0.3 = some (0, 0.00045) ∧
    findTowerClusterCenter [⟨1, 0, 0⟩, ⟨2, 90, 0⟩] 0.3 = some (90, 0) := by
  refine ⟨?_, center_close, center_far⟩
  intro towers thr hne
  have hgne := buildGroups_ne_nil thr towers hne
  rcases foldl_pick_spec (buildGroups thr towers) [] with ⟨hall, heq⟩ |
    ⟨pre, r, suf, hsplit, heq, _, hpre, hsuf⟩
  · exfalso
    obtain ⟨g, hg⟩ := List.exists_mem_of_ne_nil _ hgne
    exact absurd (hall g hg) (by simp)
  · refine ⟨pre, r, suf, hsplit, hpre, hsuf, ?_⟩
    rw [findTowerClusterCenter_eq towers thr hne, heq]

/-- C4 (witness): the amended selection rule applied to a concrete
single-tower list. -/
theorem cluster_largest_group_amended_witness :
    ([(⟨5, 1, 2⟩ : Tower)] ≠ []) ∧
    ∃ pre L suf, buildGroups 0.3 [(⟨5, 1, 2⟩ : Tower)] = pre ++ L :: suf ∧
      (∀ g ∈ pre, g.length ≤ L.length) ∧
      (∀ g ∈ suf, g.length < L.length) ∧
      findTowerClusterCenter [(⟨5, 1, 2⟩ : Tower)] 0.3 =
        some ((L.foldl (fun sum t => sum + t.lat) 0) / (L.length : ℝ),
          (L.foldl (fun sum t => sum + t.lng) 0) / (L.length : ℝ)) := by
  have h : [(⟨5, 1, 2⟩ : Tower)] ≠ [] := by simp
  exact ⟨h, cluster_largest_group_amended.1 [⟨5, 1, 2⟩] 0.3 h⟩

/-- C5: for every tower set of at least 3 towers whose bounding box is exactly
`[0,0]`–`[0.002,0.002]`, `generateGrid` at resolution `0.001` produces exactly
the 9 grid points with `lat` and `lng` in `{0, 0.001, 0.002}` (exact values in
the real-arithmetic model), each carrying `res = 0.001`. -/
theorem grid_enumeration_3x3 (towers : List Tower) (hlen : 3 ≤ towers.length)
    (h1 : bboxLatMin towers = 0) (h2 : bboxLatMax towers = 0.002)
    (h3 : bboxLngMin towers = 0) (h4 : bboxLngMax towers = 0.002) :
    (generateGrid towers 0.001).map (fun p => (p.lat, p.lng)) =
      [(0, 0), (0, 0.001), (0, 0.002),
       (0.001, 0), (0.001, 0.001), (0.001, 0.002),
       (0.002, 0), (0.002, 0.001), (0.002, 0.002)] ∧
    ∀ p ∈ generateGrid towers 0.001, p.res = 0.001 := by
  constructor
  · rw [generateGrid, if_neg (by omega), h1, h2, h3, h4, gridAxis_0_to_0002]
    simp
  · intro p hp
    exact (generateGrid_hdop hp).2

/-- C5 (witness): a concrete 3-tower set with bounding box exactly
`[0,0]`–`[0.002,0.002]`. -/
theorem grid_enumeration_3x3_witness :
    (3 ≤ ([(⟨1, 0, 0⟩ : Tower), ⟨2, 0.002, 0.002⟩, ⟨3, 0.001, 0.001⟩] : List Tower).length) ∧
    bboxLatMin [(⟨1, 0, 0⟩ : Tower), ⟨2, 0.002, 0.002⟩, ⟨3, 0.001, 0.001⟩] = 0 ∧
    bboxLatMax [(⟨1, 0, 0⟩ : Tower), ⟨2, 0.002, 0.002⟩, ⟨3, 0.001, 0.001⟩] = 0.002 ∧
    bboxLngMin [(⟨1, 0, 0⟩ : Tower), ⟨2, 0.002, 0.002⟩, ⟨3, 0.001, 0.001⟩] = 0 ∧
    bboxLngMax [(⟨1, 0, 0⟩ : Tower), ⟨2, 0.002, 0.002⟩, ⟨3, 0.001, 0.001⟩] = 0.002 ∧
    ((generateGrid [(⟨1, 0, 0⟩ : Tower), ⟨2, 0.002, 0.002⟩, ⟨3, 0.001, 0.001⟩] 0.001).map
        (fun p => (p.lat, p.lng)) =
      [(0, 0), (0, 0.001), (0, 0.002),
       (0.001, 0), (0.001, 0.001), (0.001, 0.002),
       (0.002, 0), (0.002, 0.001), (0.002, 0.002)] ∧
    ∀ p ∈ generateGrid [(⟨1, 0, 0⟩ : Tower), ⟨2, 0.002, 0.002⟩, ⟨3, 0.001, 0.001⟩] 0.001,
      p.res = 0.001) := by
  have hb1 : bboxLatMin [(⟨1, 0, 0⟩ : Tower), ⟨2, 0.002, 0.002⟩, ⟨3, 0.001, 0.001⟩] = 0 := by
    show min (min (min (90:ℝ) 0) 0.002) 0.001 = 0
    norm_num [min_def]
  have hb2 : bboxLatMax [(⟨1, 0, 0⟩ : Tower), ⟨2, 0.002, 0.002⟩, ⟨3, 0.001, 0.001⟩] = 0.002 := by
    show max (max (max (-90:ℝ) 0) 0.002) 0.001 = 0.002
    norm_num [max_def]
  have hb3 : bboxLngMin [(⟨1, 0, 0⟩ : Tower), ⟨2, 0.002, 0.002⟩, ⟨3, 0.001, 0.001⟩] = 0 := by
    show min (min (min (180:ℝ) 0) 0.002) 0.001 = 0
    norm_num [min_def]
  have hb4 : bboxLngMax [(⟨1, 0, 0⟩ : Tower), ⟨2, 0.002, 0.002⟩, ⟨3, 0.001, 0.001⟩] = 0.002 := by
    show max (max (max (-180:ℝ) 0) 0.002) 0.001 = 0.002
    norm_num [max_def]
  exact ⟨by simp, hb1, hb2, hb3, hb4,
    grid_enumeration_3x3 _ (by simp) hb1 hb2 hb3 hb4⟩

/-- C6: the bounding box computed by `generateGrid` (folded mins and maxes
over the towers) contains every input tower's coordinates. -/
theorem bbox_contains_towers (towers : List Tower) (t : Tower) (ht : t ∈ towers) :
    bboxLatMin towers ≤ t.lat ∧ t.lat ≤ bboxLatMax towers ∧
      bboxLngMin towers ≤ t.lng ∧ t.lng ≤ bboxLngMax towers :=
  bbox_mem_bounds ht

/-- C6 (witness): the bounding box of a concrete one-tower list contains that
tower. -/
theorem bbox_contains_towers_witness :
    ((⟨7, 3, 4⟩ : Tower) ∈ [(⟨7, 3, 4⟩ : Tower)]) ∧
    (bboxLatMin [(⟨7, 3, 4⟩ : Tower)] ≤ (⟨7, 3, 4⟩ : Tower).lat ∧
      (⟨7, 3, 4⟩ : Tower).lat ≤ bboxLatMax [(⟨7, 3, 4⟩ : Tower)] ∧
      bboxLngMin [(⟨7, 3, 4⟩ : Tower)] ≤ (⟨7, 3, 4⟩ : Tower).lng ∧
      (⟨7, 3, 4⟩ : Tower).lng ≤ bboxLngMax [(⟨7, 3, 4⟩ : Tower)]) := by
  have h : (⟨7, 3, 4⟩ : Tower) ∈ [(⟨7, 3, 4⟩ : Tower)] := by simp
  exact ⟨h, bbox_contains_towers _ _ h⟩

/-- C7: the greedy grouping of `findTowerClusterCenter` partitions the input:
the concatenation of all groups is a permutation of the input tower list, so
every tower occurrence lies in exactly one group and nothing is lost or
duplicated. -/
theorem cluster_groups_partition (thr : ℝ) (towers : List Tower) :
    ((buildGroups thr towers).join).Perm towers :=
  buildGroups_join_perm thr towers

/-- C8: past the tower-count guard, `computeHdop` returns the sentinel 100
exactly when `det(G) == 0` (an exact comparison, no epsilon), and otherwise
returns `sqrt(inv[0][0] + inv[1][1])` with the inverse formed by the
closed-form determinant formula (`G[1][1]/det` and `G[0][0]/det` on the
diagonal). -/
theorem hdop_det_zero_exact_sentinel (lat lng : ℝ) (towers : List Tower)
    (hlen : 3 ≤ towers.length) :
    (detG lat lng towers = JSNum.num 0 → computeHdop lat lng towers = JSNum.num 100) ∧
    (detG lat lng towers ≠ JSNum.num 0 →
      computeHdop lat lng towers =
        JSNum.sqrt ((gEntry lat lng towers 1 1).div (detG lat lng towers) +
          (gEntry lat lng towers 0 0).div (detG lat lng towers))) := by
  have h := computeHdop_eq lat lng towers (not_lt.mpr hlen)
  constructor
  · intro hd
    rw [h, if_pos hd]
  · intro hd
    rw [h, if_neg hd]

/-- C8 (witness): the branch dichotomy applied to three concrete collinear
towers. -/
theorem hdop_det_zero_exact_sentinel_witness :
    (3 ≤ ([(⟨1, 0, 1⟩ : Tower), ⟨2, 0, 2⟩, ⟨3, 0, 3⟩] : List Tower).length) ∧
    ((detG 0 0 [(⟨1, 0, 1⟩ : Tower), ⟨2, 0, 2⟩, ⟨3, 0, 3⟩] = JSNum.num 0 →
        computeHdop 0 0 [(⟨1, 0, 1⟩ : Tower), ⟨2, 0, 2⟩, ⟨3, 0, 3⟩] = JSNum.num 100) ∧
      (detG 0 0 [(⟨1, 0, 1⟩ : Tower), ⟨2, 0, 2⟩, ⟨3, 0, 3⟩] ≠ JSNum.num 0 →
        computeHdop 0 0 [(⟨1, 0, 1⟩ : Tower), ⟨2, 0, 2⟩, ⟨3, 0, 3⟩] =
          JSNum.sqrt
            ((gEntry 0 0 [(⟨1, 0, 1⟩ : Tower), ⟨2, 0, 2⟩, ⟨3, 0, 3⟩] 1 1).div
                (detG 0 0 [(⟨1, 0, 1⟩ : Tower), ⟨2, 0, 2⟩, ⟨3, 0, 3⟩]) +
              (gEntry 0 0 [(⟨1, 0, 1⟩ : Tower), ⟨2, 0, 2⟩, ⟨3, 0, 3⟩] 0 0).div
                (detG 0 0 [(⟨1, 0, 1⟩ : Tower), ⟨2, 0, 2⟩, ⟨3, 0, 3⟩])))) := by
  have h : (3 ≤ ([(⟨1, 0, 1⟩ : Tower), ⟨2, 0, 2⟩, ⟨3, 0, 3⟩] : List Tower).length) := by simp
  exact ⟨h, hdop_det_zero_exact_sentinel 0 0 _ h⟩

/-- C9: with at least 3 towers, if some tower's `(lat, lng)` exactly equals
the query point, `computeHdop` divides the zero line-of-sight vector by its
zero norm (`0/0 = NaN`), the `NaN` propagates through `G`, past the
`det === 0` check (`NaN === 0` is false), through the inversion and the final
square root, and the result is `NaN` — neither a finite value nor the
sentinel 100. -/
theorem hdop_nan_at_coincident_tower (lat lng : ℝ) (towers : List Tower)
    (hlen : 3 ≤ towers.length) (hc : ∃ t ∈ towers, t.lat = lat ∧ t.lng = lng) :
    computeHdop lat lng towers = JSNum.nan ∧
    ∀ x : ℝ, computeHdop lat lng towers ≠ JSNum.num x := by
  have h := computeHdop_nan_of_coincident lat lng towers hlen hc
  refine ⟨h, fun x hx => ?_⟩
  rw [h] at hx
  cases hx

/-- C9 (witness): the `NaN` outcome at a concrete query point sitting exactly
on the first of three towers. -/
theorem hdop_nan_at_coincident_tower_witness :
    (3 ≤ ([(⟨1, 1, 1⟩ : Tower), ⟨2, 1, 4⟩, ⟨3, 5, 1⟩] : List Tower).length) ∧
    (∃ t ∈ [(⟨1, 1, 1⟩ : Tower), ⟨2, 1, 4⟩, ⟨3, 5, 1⟩], t.lat = 1 ∧ t.lng = 1) ∧
    computeHdop 1 1 [(⟨1, 1, 1⟩ : Tower), ⟨2, 1, 4⟩, ⟨3, 5, 1⟩] = JSNum.nan ∧
    ∀ x : ℝ, computeHdop 1 1 [(⟨1, 1, 1⟩ : Tower), ⟨2, 1, 4⟩, ⟨3, 5, 1⟩] ≠ JSNum.num x := by
  have h1 : (3 ≤ ([(⟨1, 1, 1⟩ : Tower), ⟨2, 1, 4⟩, ⟨3, 5, 1⟩] : List Tower).length) := by simp
  have h2 : ∃ t ∈ [(⟨1, 1, 1⟩ : Tower), ⟨2, 1, 4⟩, ⟨3, 5, 1⟩], t.lat = 1 ∧ t.lng = 1 :=
    ⟨⟨1, 1, 1⟩, by simp, rfl, rfl⟩
  exact ⟨h1, h2, hdop_nan_at_coincident_tower 1 1 _ h1 h2⟩

/-- C10: with at least 3 towers and positive resolution, every emitted grid
point satisfies `lat ≤ latMax` and `lng ≤ lngMax` (the loop guards are `<=`),
and the first emitted point is exactly `(latMin, lngMin)`, so the grid is
non-empty. -/
theorem grid_bounds_first_point (towers : List Tower) (res : ℝ)
    (hlen : 3 ≤ towers.length) (hres : 0 < res) :
    (∀ p ∈ generateGrid towers res,
        p.lat ≤ bboxLatMax towers ∧ p.lng ≤ bboxLngMax towers) ∧
    ∃ p l, generateGrid towers res = p :: l ∧
      p.lat = bboxLatMin towers ∧ p.lng = bboxLngMin towers := by
  have hne : towers ≠ [] := by rintro rfl; simp at hlen
  have hlat := bboxLat_le hne
  have hlng := bboxLng_le hne
  constructor
  · intro p hp
    rcases generateGrid_mem hp with ⟨lat, lng, hlatm, hlngm, rfl⟩
    rcases gridAxis_mem hres hlat hlatm with ⟨k, _, hk⟩
    rcases gridAxis_mem hres hlng hlngm with ⟨j, _, hj⟩
    exact ⟨hk, hj⟩
  · rcases gridAxis_head (bboxLatMin towers) (bboxLatMax towers) res hres hlat with ⟨l1, hax1⟩
    rcases gridAxis_head (bboxLngMin towers) (bboxLngMax towers) res hres hlng with ⟨l2, hax2⟩
    rw [generateGrid, if_neg (not_lt.mpr hlen), hax1, hax2]
    refine ⟨⟨bboxLatMin towers, bboxLngMin towers,
      computeHdop (bboxLatMin towers) (bboxLngMin towers) towers, res⟩,
      (l2.map fun lng => ⟨bboxLatMin towers, lng,
        computeHdop (bboxLatMin towers) lng towers, res⟩) ++
        l1.flatMap fun lat => (bboxLngMin towers :: l2).map fun lng =>
          ⟨lat, lng, computeHdop lat lng towers, res⟩, ?_, rfl, rfl⟩
    rw [List.flatMap_cons, List.map_cons, List.cons_append]

/-- C10 (witness): bounds and first point on a concrete 3-tower grid. -/
theorem grid_bounds_first_point_witness :
    (3 ≤ ([(⟨1, 0, 0⟩ : Tower), ⟨2, 1, 1⟩, ⟨3, 2, 2⟩] : List Tower).length) ∧
    (0 < (0.5 : ℝ)) ∧
    ((∀ p ∈ generateGrid [(⟨1, 0, 0⟩ : Tower), ⟨2, 1, 1⟩, ⟨3, 2, 2⟩] 0.5,
        p.lat ≤ bboxLatMax [(⟨1, 0, 0⟩ : Tower), ⟨2, 1, 1⟩, ⟨3, 2, 2⟩] ∧
        p.lng ≤ bboxLngMax [(⟨1, 0, 0⟩ : Tower), ⟨2, 1, 1⟩, ⟨3, 2, 2⟩]) ∧
      ∃ p l, generateGrid [(⟨1, 0, 0⟩ : Tower), ⟨2, 1, 1⟩, ⟨3, 2, 2⟩] 0.5 = p :: l ∧
        p.lat = bboxLatMin [(⟨1, 0, 0⟩ : Tower), ⟨2, 1, 1⟩, ⟨3, 2, 2⟩] ∧
        p.lng = bboxLngMin [(⟨1, 0, 0⟩ : Tower), ⟨2, 1, 1⟩, ⟨3, 2, 2⟩]) := by
  have h1 : (3 ≤ ([(⟨1, 0, 0⟩ : Tower), ⟨2, 1, 1⟩, ⟨3, 2, 2⟩] : List Tower).length) := by simp
  have h2 : (0 : ℝ) < 0.5 := by norm_num
  exact ⟨h1, h2, grid_bounds_first_point _ _ h1 h2⟩

end
